import Mathlib

/-!
Shallow embedding of the storefront client's cart / checkout / catalog /
admin / analytics logic (src/unnamed/part_000, src/admin.js,
src/analytics-module.js).

Modelling conventions:
* JS numbers for money are embedded as `ℚ`; quantities as `ℤ`.
* A nullable / possibly-absent JS string is `Option String`; JS truthiness
  of such a value (`if (x)`) is `jsTruthy` (absent, null and `""` are falsy).
* Backend (supabase) calls are fallible collaborators: each operation takes
  the outcome of the single backend call it issues as an explicit parameter
  (`Bool` error flag, or `Option row` where `none` means the call errored).
  On success the backend table state is transformed with the standard SQL
  semantics of the issued statement (`update ... eq id`, `insert`,
  `delete ... eq`); an insert with `.select()` echoes the inserted row,
  joined with the referenced product row.
* DOM rendering, toasts and navigation are ignored except that a surfaced
  error toast is modelled as an `error` result value.
-/

/-- JS truthiness of a possibly-absent string value. -/
def jsTruthy : Option String → Bool
  | none => false
  | some s => s ≠ ""

/-- Product record as stored in the `products` table (fields used by the
modelled code paths). -/
structure Product where
  id : String
  name : String
  price : ℚ
  image_url : String
  sizes : Option (List String)
  category : String
  featured : Bool
  created_at : ℤ
  stock : ℤ
  sku : String
deriving DecidableEq, Repr

/-- One in-memory cart line (`cart` array element).  Lines loaded from or
inserted into the backend carry the backend row id (`some`); anonymous
local-storage lines carry none. -/
structure CartLine where
  id : Option String
  product : Product
  quantity : ℤ
  size : String
deriving DecidableEq, Repr

/-- One backend `cart_items` row. -/
structure CartRow where
  id : String
  user_id : String
  product_id : String
  quantity : ℤ
  size : String
deriving DecidableEq, Repr

/-- One snapshot line of an order (`orderData.items` element built by
`processCheckout`). -/
structure OrderItem where
  product_id : String
  name : String
  quantity : ℤ
  size : String
  price : ℚ
  image_url : String
deriving DecidableEq, Repr

/-- One backend `orders` row as inserted by `processCheckout`. -/
structure OrderRow where
  id : String
  user_id : String
  items : List OrderItem
  total : ℚ
  status : String
deriving DecidableEq, Repr

/-- The client-visible state the modelled operations read and write:
in-memory cart, the backend `cart_items`, `orders` and `products` tables,
and the serialized `localStorage` cart. -/
structure AppState where
  cart : List CartLine
  cartDb : List CartRow
  orders : List OrderRow
  productsDb : List Product
  localStore : Option (List CartLine)
deriving DecidableEq, Repr

/-- Result of a cart mutation: `ok`, or `error` when a backend failure was
surfaced (error toast) and the mutation aborted. -/
inductive CartResult where
  | ok : CartResult
  | error : CartResult
deriving DecidableEq, Repr

/-- The row returned by `insert(...).select('*, products(*)')` on
`cart_items`: backend-assigned id, the joined product row, and the echoed
scalar columns. -/
structure InsertedRow where
  rid : String
  joined : Product
  rquantity : ℤ
  rsize : String
deriving DecidableEq, Repr

/-- `cart.find(item => item.product.id === product.id && item.size === size)`. -/
def findPair (cart : List CartLine) (pid size : String) : Option CartLine :=
  cart.find? (fun item => item.product.id = pid ∧ item.size = size)

/-- In-place `existingItem.quantity += quantity` on the first matching line. -/
def bumpFirst (pid size : String) (q : ℤ) : List CartLine → List CartLine
  | [] => []
  | l :: ls =>
    if l.product.id = pid ∧ l.size = size then
      { l with quantity := l.quantity + q } :: ls
    else
      l :: bumpFirst pid size q ls

/-- `addToCart(product, size, quantity)` (src/unnamed/part_000, lines
500–555).  `user` is `currentUser`'s id when authenticated.  `updErr` is
the error outcome of the backend `update` call (used only when an existing
line is found); `insResp` is the outcome of the backend `insert` call
(`none` = error; used only when no existing line is found). -/
def addToCart (user : Option String) (st : AppState) (product : Product)
    (size : String) (qty : ℤ) (updErr : Bool) (insResp : Option InsertedRow) :
    AppState × CartResult :=
  match user with
  | some u =>
    match findPair st.cart product.id size with
    | some existing =>
      if updErr then (st, .error)
      else
        ({ st with
            cart := bumpFirst product.id size qty st.cart,
            cartDb := st.cartDb.map (fun r =>
              if some r.id = existing.id then
                { r with quantity := existing.quantity + qty }
              else r) }, .ok)
    | none =>
      match insResp with
      | none => (st, .error)
      | some r =>
        ({ st with
            cart := st.cart ++ [⟨some r.rid, r.joined, r.rquantity, r.rsize⟩],
            cartDb := st.cartDb ++ [⟨r.rid, u, product.id, qty, size⟩] }, .ok)
  | none =>
    match findPair st.cart product.id size with
    | some _ =>
      let c := bumpFirst product.id size qty st.cart
      ({ st with cart := c, localStore := some c }, .ok)
    | none =>
      let c := st.cart ++ [⟨none, product, qty, size⟩]
      ({ st with cart := c, localStore := some c }, .ok)

/-- `removeFromCart(index)` (src/unnamed/part_000, lines 557–580).
`delErr` is the outcome of the backend `delete` call (issued only when
authenticated and the line carries a backend id).  An out-of-range index
(where the source would throw on `cart[index]`) leaves the state
unchanged. -/
def removeFromCart (user : Option String) (st : AppState) (index : ℕ)
    (delErr : Bool) : AppState × CartResult :=
  match st.cart.get? index with
  | none => (st, .ok)
  | some line =>
    let doSplice (st : AppState) : AppState :=
      let c := st.cart.eraseIdx index
      if user.isSome then { st with cart := c }
      else { st with cart := c, localStore := some c }
    match user, line.id with
    | some _, some rid =>
      if delErr then (st, .error)
      else (doSplice { st with cartDb := st.cartDb.filter (fun r => r.id ≠ rid) }, .ok)
    | _, _ => (doSplice st, .ok)

/-- `updateCartQuantity(index, newQuantity)` (src/unnamed/part_000, lines
582–610).  `bErr` is the outcome of the single backend call the operation
issues (the `delete` when it delegates to remove, the `update`
otherwise). -/
def updateCartQuantity (user : Option String) (st : AppState) (index : ℕ)
    (newQty : ℤ) (bErr : Bool) : AppState × CartResult :=
  if newQty < 1 then removeFromCart user st index bErr
  else
    match st.cart.get? index with
    | none => (st, .ok)
    | some line =>
      let setQty (st : AppState) : AppState :=
        let c := st.cart.set index { line with quantity := newQty }
        if user.isSome then { st with cart := c }
        else { st with cart := c, localStore := some c }
      match user, line.id with
      | some _, some rid =>
        if bErr then (st, .error)
        else (setQty { st with cartDb := st.cartDb.map (fun r =>
          if r.id = rid then { r with quantity := newQty } else r) }, .ok)
      | _, _ => (setQty st, .ok)

/-- Result of `processCheckout`. -/
inductive CheckoutResult where
  | emptyCart : CheckoutResult
  | notLoggedIn : CheckoutResult
  | insertErr : CheckoutResult
  | success : String → CheckoutResult
deriving DecidableEq, Repr

/-- The order total `processCheckout` computes:
`cart.reduce((sum, item) => sum + item.product.price * item.quantity, 0)`. -/
def cartTotal (cart : List CartLine) : ℚ :=
  cart.foldl (fun sum item => sum + item.product.price * item.quantity) 0

/-- One `orderData.items` snapshot element. -/
def snapshotItem (item : CartLine) : OrderItem :=
  ⟨item.product.id, item.product.name, item.quantity, item.size,
    item.product.price, item.product.image_url⟩

/-- `processCheckout()` (src/unnamed/part_000, lines 663–718).  `insResp`
is the id of the order row assigned by the backend `insert` (`none` =
error, which is caught and aborts).  `delErr` is the outcome of the
subsequent `cart_items` delete; the source neither checks nor propagates
it (the call's result is discarded), so a failed delete leaves the rows
but the flow still clears the in-memory cart. -/
def processCheckout (user : Option String) (st : AppState)
    (insResp : Option String) (delErr : Bool) : AppState × CheckoutResult :=
  if st.cart.length = 0 then (st, .emptyCart)
  else
    match user with
    | none => (st, .notLoggedIn)
    | some u =>
      match insResp with
      | none => (st, .insertErr)
      | some oid =>
        let total := cartTotal st.cart
        let order : OrderRow :=
          ⟨oid, u, st.cart.map snapshotItem, total, "pending"⟩
        let db := if delErr then st.cartDb
                  else st.cartDb.filter (fun r => r.user_id ≠ u)
        ({ st with
            cart := [],
            cartDb := db,
            orders := st.orders ++ [order],
            localStore := none }, .success oid)

/-- Catalog filter configuration passed to `loadProducts`. -/
structure Filters where
  category : Option String
  search : Option String
  size : Option String
  sort : Option String
deriving DecidableEq, Repr

/-- Does `pre` start the char list `l`? (helper for case-insensitive
substring matching). -/
def startsList : List Char → List Char → Bool
  | [], _ => true
  | _ :: _, [] => false
  | a :: as, b :: bs => a = b && startsList as bs

/-- Is `nd` a contiguous infix of `l`? -/
def infixList (nd : List Char) : List Char → Bool
  | [] => nd.isEmpty
  | c :: cs => startsList nd (c :: cs) || infixList nd cs

/-- `ilike('name', %s%)`: case-insensitive substring match (the modelled
search strings contain no SQL wildcard characters). -/
def strContainsCI (hay needle : String) : Bool :=
  infixList needle.toLower.data hay.toLower.data

/-- Stable insertion of a product into a list sorted by `le`. -/
def ordInsert (le : Product → Product → Bool) (p : Product) :
    List Product → List Product
  | [] => [p]
  | q :: qs => if le q p then q :: ordInsert le p qs else p :: q :: qs

/-- Stable sort by `le`, modelling the backend's `order(...)` clause. -/
def sortByLe (le : Product → Product → Bool) : List Product → List Product
  | [] => []
  | p :: ps => ordInsert le p (sortByLe le ps)

/-- The comparator selected by `filters.sort` in `loadProducts`:
`price-low` ascending price, `price-high` descending price, `popular`
descending `featured`, otherwise descending `created_at`. -/
def sortComparator (sort : Option String) : Product → Product → Bool :=
  if sort = some "price-low" then fun a b => a.price ≤ b.price
  else if sort = some "price-high" then fun a b => b.price ≤ a.price
  else if sort = some "popular" then fun a b => b.featured ≤ a.featured
  else fun a b => b.created_at ≤ a.created_at

/-- The backend query `loadProducts` builds: `eq('category', ...)` when a
category filter is truthy, `ilike('name', %search%)` when a search filter
is truthy, then the selected `order(...)`. -/
def buildQuery (f : Filters) (table : List Product) : List Product :=
  let q1 := if jsTruthy f.category then
      table.filter (fun p => p.category = f.category.getD "")
    else table
  let q2 := if jsTruthy f.search then
      q1.filter (fun p => strContainsCI p.name (f.search.getD ""))
    else q1
  sortByLe (sortComparator f.sort) q2

/-- `product.sizes && product.sizes.includes(filters.size)`. -/
def sizeMatches (sz : String) (p : Product) : Bool :=
  match p.sizes with
  | none => false
  | some l => sz ∈ l

/-- `loadProducts(filters)` (src/unnamed/part_000, lines 311–352).
Returns `(allProducts, products)`: the fetched set and the displayed set
(the size filter applied client-side when truthy). -/
def loadProducts (f : Filters) (table : List Product) :
    List Product × List Product :=
  let allProducts := buildQuery f table
  let products := if jsTruthy f.size then
      allProducts.filter (sizeMatches (f.size.getD ""))
    else allProducts
  (allProducts, products)

/-- Admin product payload (`productData`).  `id` is the possibly-absent
identifier (the admin form encodes "no id" as the empty string). -/
structure ProductPayload where
  id : Option String
  name : String
  sku : String
  category : String
  price : ℚ
  stock : ℤ
  featured : Bool
  image_url : String
  sizes : List String
deriving DecidableEq, Repr

/-- Which backend statement `saveAdminProduct` issued. -/
inductive AdminAction where
  | updated : AdminAction
  | inserted : AdminAction
deriving DecidableEq, Repr

/-- Apply an update payload to an existing product row. -/
def applyPayload (pd : ProductPayload) (p : Product) : Product :=
  { p with
      name := pd.name, sku := pd.sku, category := pd.category,
      price := pd.price, stock := pd.stock, featured := pd.featured,
      image_url := pd.image_url, sizes := some pd.sizes }

/-- `saveAdminProduct(productData)` (src/unnamed/part_000, lines 901–927)
and the identically-routed `saveProduct` (src/admin.js, lines 478–518):
a truthy `productData.id` selects `update`, otherwise `insert`.  `newId`
is the backend-assigned id on insert; `bErr` the backend error outcome. -/
def saveAdminProduct (st : AppState) (pd : ProductPayload) (newId : String)
    (bErr : Bool) : AppState × CartResult × AdminAction :=
  if jsTruthy pd.id then
    if bErr then (st, .error, .updated)
    else
      ({ st with productsDb := st.productsDb.map (fun p =>
          if p.id = pd.id.getD "" then applyPayload pd p else p) },
        .ok, .updated)
  else
    if bErr then (st, .error, .inserted)
    else
      ({ st with productsDb := st.productsDb ++
          [applyPayload pd ⟨newId, "", 0, "", none, "", false, 0, 0, ""⟩] },
        .ok, .inserted)

/-- Result record of `calculateRevenue`. -/
structure RevenueResult where
  total : ℚ
  lastMonth : ℚ
  change : ℚ
deriving DecidableEq, Repr

/-- `x.toFixed(1)` then `parseFloat`: round to one decimal place. -/
def roundTenth (x : ℚ) : ℚ := (round (x * 10) : ℤ) / 10

/-- `calculateRevenue()` (src/analytics-module.js, lines 87–130), given
the `total` columns of the two fetched paid-order sets (current month,
previous month).  Sums each, and reports the percent change rounded to
one decimal (`.toFixed(1)` + `parseFloat`) when last-month revenue is
positive, `0` otherwise. -/
def calculateRevenue (currentTotals lastTotals : List ℚ) : RevenueResult :=
  let currentRevenue := currentTotals.foldl (fun sum t => sum + t) 0
  let lastRevenue := lastTotals.foldl (fun sum t => sum + t) 0
  let change := if lastRevenue > 0 then
      roundTenth ((currentRevenue - lastRevenue) / lastRevenue * 100)
    else 0
  ⟨currentRevenue, lastRevenue, change⟩

/-- A chosen file in the admin image picker: MIME type and byte size. -/
structure PickedFile where
  mimeType : String
  size : ℕ
deriving DecidableEq, Repr

/-- Outcome of the file-input change handler. -/
inductive PickResult where
  | accepted : PickResult
  | notImage : PickResult
  | tooLarge : PickResult
deriving DecidableEq, Repr

/-- `s.startsWith(pre)`. -/
def strStartsWith (s pre : String) : Bool :=
  startsList pre.data s.data

/-- The file-input `change` handler registered by the admin image-picker
setup (src/unnamed/part_000, lines 1083–1114): rejects a file whose MIME
type does not start with `image/` or whose size exceeds 5 * 1024 * 1024
bytes with an error notification, leaving `selectedImageFile` unchanged;
otherwise stores the file as `selectedImageFile`. -/
def onImageFileSelected (prevSelected : Option PickedFile)
    (file : PickedFile) : Option PickedFile × PickResult :=
  if ¬ strStartsWith file.mimeType "image/" then (prevSelected, .notImage)
  else if file.size > 5 * 1024 * 1024 then (prevSelected, .tooLarge)
  else (some file, .accepted)

/-- Number of cart lines for a given (product id, size) pair. -/
def countPair (cart : List CartLine) (pid size : String) : ℕ :=
  (cart.filter (fun item => item.product.id = pid ∧ item.size = size)).length

/-- One `addToCart` invocation in a sequence: the requested quantity and
the backend outcomes for whichever call the invocation issues. -/
structure AddEvent where
  qty : ℤ
  updErr : Bool
  insResp : Option InsertedRow
deriving DecidableEq, Repr

/-- A sequence of `addToCart` calls with a fixed user, product and size. -/
def applyAddEvents (user : Option String) (product : Product) (size : String)
    (st : AppState) : List AddEvent → AppState
  | [] => st
  | e :: es =>
    applyAddEvents user product size
      (addToCart user st product size e.qty e.updErr e.insResp).1 es

/-- An `AddEvent` whose backend call succeeds and whose insert response
echoes the request (standard `insert ... returning` semantics, the joined
product row carrying the inserted `product_id`). -/
def eventOk (product : Product) (size : String) (e : AddEvent) : Prop :=
  e.updErr = false ∧ ∃ r, e.insResp = some r ∧ r.joined.id = product.id ∧
    r.rquantity = e.qty ∧ r.rsize = size

/-- Concrete fixture: one product row. -/
def prodA : Product :=
  ⟨"p1", "Tee", 10, "img", some ["M", "L"], "men", false, 0, 5, "SKU1"⟩

/-- Concrete fixture: one authenticated cart line for `prodA`. -/
def lineA : CartLine := ⟨some "c1", prodA, 2, "M"⟩

/-- Concrete fixture: the backend `cart_items` row behind `lineA`. -/
def rowA : CartRow := ⟨"c1", "u1", "p1", 2, "M"⟩

/-- Concrete fixture: an authenticated one-line-cart state. -/
def stA : AppState := ⟨[lineA], [rowA], [], [prodA], none⟩

/-- C5: `updateCartQuantity` with quantity 0, and any quantity strictly
below 1, produces exactly the same resulting state (in-memory cart, local
storage, backend rows) and result as `removeFromCart` on that index, in
every mode. -/
theorem updateCartQuantity_zero_eq_remove (user : Option String)
    (st : AppState) (index : ℕ) (q : ℤ) (bErr : Bool) (hq : q < 1) :
    updateCartQuantity user st index q bErr = removeFromCart user st index bErr := by
  simp [updateCartQuantity, hq]

theorem updateCartQuantity_zero_eq_remove_witness :
    updateCartQuantity none ⟨[], [], [], [], none⟩ 0 0 false =
      removeFromCart none ⟨[], [], [], [], none⟩ 0 false :=
  updateCartQuantity_zero_eq_remove none ⟨[], [], [], [], none⟩ 0 0 false (by decide)

/-- C6: `processCheckout` rejects every call with an empty cart and every
call with no authenticated identity: the state (so orders, backend cart
rows and in-memory cart) is unchanged and no success result is produced. -/
theorem processCheckout_rejects (user : Option String) (st : AppState)
    (insResp : Option String) (delErr : Bool)
    (h : st.cart = [] ∨ user = none) :
    (processCheckout user st insResp delErr).1 = st ∧
      ∀ oid, (processCheckout user st insResp delErr).2 ≠ .success oid := by
  rcases h with h | h
  · simp [processCheckout, h]
  · subst h
    by_cases hc : st.cart.length = 0 <;> simp [processCheckout, hc]

theorem processCheckout_rejects_witness :
    (processCheckout none ⟨[], [], [], [], none⟩ (some "o1") false).1 =
        ⟨[], [], [], [], none⟩ ∧
      ∀ oid, (processCheckout none ⟨[], [], [], [], none⟩ (some "o1")
        false).2 ≠ .success oid :=
  processCheckout_rejects none ⟨[], [], [], [], none⟩ (some "o1") false
    (Or.inl rfl)

/-- C9: `saveAdminProduct` (and the identically-routed admin.js
`saveProduct`) issues the backend update exactly when the payload carries
an identifier (a truthy `id`; the admin form encodes absence as the empty
string) and the insert exactly otherwise — never both, never neither. -/
theorem saveAdminProduct_routing (st : AppState) (pd : ProductPayload)
    (newId : String) (bErr : Bool) :
    ((saveAdminProduct st pd newId bErr).2.2 = .updated ↔
        jsTruthy pd.id = true) ∧
      ((saveAdminProduct st pd newId bErr).2.2 = .inserted ↔
        jsTruthy pd.id = false) := by
  by_cases h : jsTruthy pd.id = true
  · constructor <;> simp [saveAdminProduct, h] <;> by_cases hb : bErr <;> simp [hb]
  · have h2 : jsTruthy pd.id = false := by simpa using h
    constructor <;> simp [saveAdminProduct, h2] <;> by_cases hb : bErr <;> simp [hb]

/-- C10: the admin image-picker change handler accepts a file as the
pending upload exactly when its MIME type starts with `image/` and its
size is at most 5 * 1024 * 1024 bytes; otherwise the pending state is
unchanged and the file is rejected with a notification. -/
theorem onImageFileSelected_spec (prev : Option PickedFile)
    (file : PickedFile) :
    (((onImageFileSelected prev file).1 = some file ∧
        (onImageFileSelected prev file).2 = .accepted) ↔
      (strStartsWith file.mimeType "image/" = true ∧
        file.size ≤ 5 * 1024 * 1024)) ∧
    (¬ (strStartsWith file.mimeType "image/" = true ∧
        file.size ≤ 5 * 1024 * 1024) →
      (onImageFileSelected prev file).1 = prev ∧
        (onImageFileSelected prev file).2 ≠ .accepted) := by
  by_cases ht : strStartsWith file.mimeType "image/" = true
  · by_cases hs : file.size ≤ 5 * 1024 * 1024
    · simp [onImageFileSelected, ht, hs, Nat.not_lt.mpr hs]
    · have hgt : file.size > 5 * 1024 * 1024 := Nat.lt_of_not_le hs
      simp [onImageFileSelected, ht, hgt, hs]
  · simp [onImageFileSelected, ht]

theorem onImageFileSelected_spec_witness :
    (onImageFileSelected none ⟨"image/png", 1024⟩).1 =
        some ⟨"image/png", 1024⟩ ∧
      (onImageFileSelected none ⟨"text/plain", 1024⟩).1 = none :=
  ⟨((onImageFileSelected_spec none ⟨"image/png", 1024⟩).1.mpr
      (by decide)).1,
    ((onImageFileSelected_spec none ⟨"text/plain", 1024⟩).2
      (by decide)).1⟩

/-- Rounding to one decimal moves a rational by at most 1/20. -/
theorem roundTenth_close (x : ℚ) : |roundTenth x - x| ≤ 1 / 20 := by
  have h : |x * 10 - round (x * 10)| ≤ 1 / 2 := abs_sub_round (x * 10)
  have hx : roundTenth x - x = -(x * 10 - (round (x * 10) : ℚ)) / 10 := by
    unfold roundTenth; ring
  rw [hx, abs_div, abs_neg]
  have h10 : |(10 : ℚ)| = 10 := by norm_num
  rw [h10]
  linarith

/-- The percent change reported by `calculateRevenue` is the `toFixed(1)`
rounding of the exact formula when last-month revenue is positive, `0`
otherwise. -/
theorem calculateRevenue_change_eq (c l : List ℚ) :
    (calculateRevenue c l).change =
      if 0 < (calculateRevenue c l).lastMonth then
        roundTenth (((calculateRevenue c l).total -
          (calculateRevenue c l).lastMonth) /
          (calculateRevenue c l).lastMonth * 100)
      else 0 := rfl

/-- C8 counterexample: with current-month totals summing to 100 and
last-month totals summing to 300 (positive), the reported change is
-66.7, not the exact (100−300)/300×100 = −200/3 the claim states. -/
theorem calculateRevenue_change_not_exact :
    0 < (calculateRevenue [100] [300]).lastMonth ∧
      (calculateRevenue [100] [300]).change ≠
        ((calculateRevenue [100] [300]).total -
          (calculateRevenue [100] [300]).lastMonth) /
          (calculateRevenue [100] [300]).lastMonth * 100 := by
  constructor
  · show (0:ℚ) < List.foldl (fun sum t => sum + t) 0 [300]
    simp [List.foldl]
  · rw [calculateRevenue_change_eq]
    have h1 : (calculateRevenue [100] [300]).total = 100 := by
      show List.foldl (fun sum t => sum + t) 0 [100] = 100
      simp [List.foldl]
    have h2 : (calculateRevenue [100] [300]).lastMonth = 300 := by
      show List.foldl (fun sum t => sum + t) 0 [300] = 300
      simp [List.foldl]
    rw [h1, h2, if_pos (by norm_num)]
    unfold roundTenth
    rw [round_eq]
    norm_num [Int.floor_eq_iff]

/-- C8 (amended): `calculateRevenue` reports percent change equal to
(current − previous)/previous × 100 rounded to one decimal place
(`toFixed(1)`, hence within 1/20 of the exact value) when previous > 0,
and 0 when previous = 0; in particular current = 150, previous = 100
yields exactly 50. -/
theorem calculateRevenue_change_spec (c l : List ℚ)
    (h : 0 < (calculateRevenue c l).lastMonth) :
    (calculateRevenue c l).change =
        roundTenth (((calculateRevenue c l).total -
          (calculateRevenue c l).lastMonth) /
          (calculateRevenue c l).lastMonth * 100) ∧
      |(calculateRevenue c l).change -
        ((calculateRevenue c l).total - (calculateRevenue c l).lastMonth) /
          (calculateRevenue c l).lastMonth * 100| ≤ 1 / 20 ∧
      (calculateRevenue [150] [100]).change = 50 ∧
      (∀ c2 l2 : List ℚ, (calculateRevenue c2 l2).lastMonth = 0 →
        (calculateRevenue c2 l2).change = 0) := by
  have hc : (calculateRevenue c l).change =
      roundTenth (((calculateRevenue c l).total -
        (calculateRevenue c l).lastMonth) /
        (calculateRevenue c l).lastMonth * 100) := by
    rw [calculateRevenue_change_eq, if_pos h]
  refine ⟨hc, ?_, ?_, ?_⟩
  · rw [hc]; exact roundTenth_close _
  · have h1 : (calculateRevenue [150] [100]).total = 150 := by
      show List.foldl (fun sum t => sum + t) 0 [150] = 150
      simp [List.foldl]
    have h2 : (calculateRevenue [150] [100]).lastMonth = 100 := by
      show List.foldl (fun sum t => sum + t) 0 [100] = 100
      simp [List.foldl]
    rw [calculateRevenue_change_eq, h1, h2, if_pos (by norm_num)]
    unfold roundTenth
    rw [round_eq]
    norm_num [Int.floor_eq_iff]
  · intro c2 l2 h0
    rw [calculateRevenue_change_eq, if_neg (by rw [h0]; exact lt_irrefl 0)]

theorem calculateRevenue_change_spec_witness :
    (calculateRevenue [150] [100]).change = 50 :=
  (calculateRevenue_change_spec [150] [100]
    (by show (0:ℚ) < List.foldl (fun sum t => sum + t) 0 [100]
        simp [List.foldl])).2.2.1

/-- C4: a backend error aborts every backend-backed cart mutation — the
state (in-memory cart included) is unchanged and the error is surfaced —
while anonymous (local-storage) mode has no failure path: every anonymous
mutation reports `ok`. -/
theorem backendError_aborts (u : String) (st : AppState) :
    (∀ (product : Product) (size : String) (qty : ℤ),
      addToCart (some u) st product size qty true none = (st, .error)) ∧
    (∀ (index : ℕ) (line : CartLine), st.cart.get? index = some line →
      line.id.isSome = true →
      removeFromCart (some u) st index true = (st, .error)) ∧
    (∀ (index : ℕ) (line : CartLine) (q : ℤ),
      st.cart.get? index = some line → line.id.isSome = true →
      updateCartQuantity (some u) st index q true = (st, .error)) ∧
    (∀ (st2 : AppState) (product : Product) (size : String) (qty : ℤ)
      (uE : Bool) (iR : Option InsertedRow),
      (addToCart none st2 product size qty uE iR).2 = .ok) ∧
    (∀ (st2 : AppState) (index : ℕ) (dE : Bool),
      (removeFromCart none st2 index dE).2 = .ok) ∧
    (∀ (st2 : AppState) (index : ℕ) (q : ℤ) (bE : Bool),
      (updateCartQuantity none st2 index q bE).2 = .ok) := by
  have hrem : ∀ (index : ℕ) (line : CartLine),
      st.cart.get? index = some line → line.id.isSome = true →
      removeFromCart (some u) st index true = (st, .error) := by
    intro index line hget hid
    obtain ⟨rid, hrid⟩ := Option.isSome_iff_exists.mp hid
    have hget2 : st.cart[index]? = some line := by
      rw [← List.get?_eq_getElem?]; exact hget
    simp [removeFromCart, hget, hget2, hrid]
  have hremAnon : ∀ (st2 : AppState) (index : ℕ) (dE : Bool),
      (removeFromCart none st2 index dE).2 = .ok := by
    intro st2 index dE
    unfold removeFromCart
    cases hget : st2.cart.get? index with
    | none => rfl
    | some line => cases line.id <;> rfl
  refine ⟨?_, hrem, ?_, ?_, hremAnon, ?_⟩
  · intro product size qty
    unfold addToCart
    cases h : findPair st.cart product.id size <;> simp [h]
  · intro index line q hget hid
    by_cases hq : q < 1
    · rw [updateCartQuantity, if_pos hq]
      exact hrem index line hget hid
    · obtain ⟨rid, hrid⟩ := Option.isSome_iff_exists.mp hid
      have hget2 : st.cart[index]? = some line := by
        rw [← List.get?_eq_getElem?]; exact hget
      rw [updateCartQuantity, if_neg hq]
      simp [hget, hget2, hrid]
  · intro st2 product size qty uE iR
    unfold addToCart
    cases h : findPair st2.cart product.id size <;> simp [h]
  · intro st2 index q bE
    by_cases hq : q < 1
    · rw [updateCartQuantity, if_pos hq]
      exact hremAnon st2 index bE
    · rw [updateCartQuantity, if_neg hq]
      cases hget : st2.cart.get? index with
      | none => rfl
      | some line => cases line.id <;> rfl

theorem backendError_aborts_witness :
    removeFromCart (some "u1") stA 0 true = (stA, .error) ∧
      (addToCart none stA prodA "M" 1 false none).2 = .ok :=
  ⟨(backendError_aborts "u1" stA).2.1 0 lineA rfl rfl,
    (backendError_aborts "u1" stA).2.2.2.1 stA prodA "M" 1 false none⟩

/-- C3 counterexample: checkout on a one-line authenticated cart whose
order insert succeeds but whose cart-row delete fails still reports
success and clears the in-memory cart, yet a backend `cart_items` row for
the identity remains. -/
theorem processCheckout_stale_rows :
    (processCheckout (some "u1") stA (some "o1") true).2 =
        .success "o1" ∧
      (processCheckout (some "u1") stA (some "o1") true).1.cart = [] ∧
      ∃ r ∈ (processCheckout (some "u1") stA (some "o1") true).1.cartDb,
        r.user_id = "u1" := by
  refine ⟨rfl, rfl, ⟨rowA, ?_, rfl⟩⟩
  show rowA ∈ stA.cartDb
  simp [stA]

/-- C3 (amended): after a successful order insert, the in-memory cart is
emptied and local storage cleared unconditionally; the backend
`cart_items` rows for the identity are removed only when the follow-up
delete succeeds — its error is swallowed, so a failed delete leaves the
rows behind. -/
theorem processCheckout_clears_cart (u : String) (st : AppState)
    (oid : String) (delErr : Bool) (h : st.cart ≠ []) :
    (processCheckout (some u) st (some oid) delErr).2 = .success oid ∧
      (processCheckout (some u) st (some oid) delErr).1.cart = [] ∧
      (processCheckout (some u) st (some oid) delErr).1.localStore = none ∧
      (delErr = false →
        ∀ r ∈ (processCheckout (some u) st (some oid) delErr).1.cartDb,
          r.user_id ≠ u) := by
  have hl : ¬ st.cart.length = 0 := by
    simpa [List.length_eq_zero] using h
  unfold processCheckout
  rw [if_neg hl]
  refine ⟨rfl, rfl, rfl, ?_⟩
  intro hd r hr
  subst hd
  simp only [Bool.false_eq_true, if_false, List.mem_filter] at hr
  simpa using hr.2

theorem processCheckout_clears_cart_witness :
    (processCheckout (some "u1") stA (some "o1") false).2 =
        .success "o1" ∧
      (processCheckout (some "u1") stA (some "o1") false).1.cart = [] ∧
      (processCheckout (some "u1") stA (some "o1") false).1.localStore =
        none ∧
      (false = false →
        ∀ r ∈ (processCheckout (some "u1") stA (some "o1")
            false).1.cartDb, r.user_id ≠ "u1") :=
  processCheckout_clears_cart "u1" stA "o1" false (by simp [stA])

/-- Folding the checkout total accumulator equals the sum of per-line
price × quantity. -/
theorem cartTotal_eq_sum (cart : List CartLine) (a : ℚ) :
    cart.foldl (fun sum item => sum + item.product.price * (item.quantity : ℚ)) a
      = a + (cart.map fun item =>
          item.product.price * (item.quantity : ℚ)).sum := by
  induction cart generalizing a with
  | nil => simp
  | cons x xs ih =>
    rw [List.foldl_cons, ih, List.map_cons, List.sum_cons]
    ring

/-- C2: a successful checkout appends exactly one order whose total is
Σ (line price × quantity) over the cart at call time and whose items are
value snapshots of the cart lines; a later admin product edit
(`saveAdminProduct`) never changes the stored orders of any state. -/
theorem processCheckout_total_snapshot (u : String) (st : AppState)
    (oid : String) (delErr : Bool) (h : st.cart ≠ []) :
    ∃ ord : OrderRow,
      (processCheckout (some u) st (some oid) delErr).1.orders =
          st.orders ++ [ord] ∧
        ord.total = (st.cart.map fun item =>
          item.product.price * (item.quantity : ℚ)).sum ∧
        ord.items = st.cart.map snapshotItem ∧
        ∀ (st2 : AppState) (pd : ProductPayload) (newId : String)
          (bErr : Bool),
          (saveAdminProduct st2 pd newId bErr).1.orders = st2.orders := by
  have hl : ¬ st.cart.length = 0 := by
    simpa [List.length_eq_zero] using h
  refine ⟨⟨oid, u, st.cart.map snapshotItem, cartTotal st.cart,
    "pending"⟩, ?_, ?_, rfl, ?_⟩
  · unfold processCheckout
    rw [if_neg hl]
  · show cartTotal st.cart = _
    unfold cartTotal
    rw [cartTotal_eq_sum]
    ring
  · intro st2 pd newId bErr
    unfold saveAdminProduct
    by_cases ht : jsTruthy pd.id = true <;> by_cases hb : bErr <;>
      simp [ht, hb]

theorem processCheckout_total_snapshot_witness :
    ∃ ord : OrderRow,
      (processCheckout (some "u1") stA (some "o1") false).1.orders =
          stA.orders ++ [ord] ∧
        ord.total = (stA.cart.map fun item =>
          item.product.price * (item.quantity : ℚ)).sum ∧
        ord.items = stA.cart.map snapshotItem ∧
        ∀ (st2 : AppState) (pd : ProductPayload) (newId : String)
          (bErr : Bool),
          (saveAdminProduct st2 pd newId bErr).1.orders = st2.orders :=
  processCheckout_total_snapshot "u1" stA "o1" false (by simp [stA])

/-- Membership through stable ordered insertion. -/
theorem mem_ordInsert (le : Product → Product → Bool) (p q : Product)
    (l : List Product) : q ∈ ordInsert le p l ↔ q = p ∨ q ∈ l := by
  induction l with
  | nil => simp [ordInsert]
  | cons x xs ih =>
    by_cases h : le x p = true
    · simp [ordInsert, h, ih, or_left_comm]
    · simp [ordInsert, h]

/-- The backend sort is a permutation: membership is preserved. -/
theorem mem_sortByLe (le : Product → Product → Bool) (l : List Product)
    (p : Product) : p ∈ sortByLe le l ↔ p ∈ l := by
  induction l with
  | nil => simp [sortByLe]
  | cons x xs ih => simp [sortByLe, mem_ordInsert, ih]

/-- C7: with a truthy `size` filter, `loadProducts` displays exactly the
size-matching products of the fetched (category/search-filtered, sorted)
set, client-side, preserving the fetched order: the displayed set is the
filter of the fetched set, a sublist of it, and membership is the
intersection of the backend-filter predicates and the size predicate. -/
theorem loadProducts_size_filter (f : Filters) (table : List Product)
    (sz : String) (hsz : f.size = some sz) (hne : sz ≠ "") :
    (loadProducts f table).2 =
        (loadProducts f table).1.filter (sizeMatches sz) ∧
      List.Sublist (loadProducts f table).2 (loadProducts f table).1 ∧
      (∀ p, p ∈ (loadProducts f table).2 ↔
        p ∈ (loadProducts f table).1 ∧ sizeMatches sz p = true) ∧
      (∀ p, p ∈ (loadProducts f table).1 ↔ p ∈ table ∧
        (jsTruthy f.category = true → p.category = f.category.getD "") ∧
        (jsTruthy f.search = true →
          strContainsCI p.name (f.search.getD "") = true)) := by
  have htr : jsTruthy f.size = true := by
    rw [hsz]; simpa [jsTruthy] using hne
  have hfst : (loadProducts f table).1 = buildQuery f table := rfl
  have hflt : (loadProducts f table).2 =
      (loadProducts f table).1.filter (sizeMatches sz) := by
    rw [hsz] at htr
    simp [loadProducts, htr, hsz]
  refine ⟨hflt, ?_, ?_, ?_⟩
  · rw [hflt]; exact List.filter_sublist _
  · intro p
    rw [hflt, List.mem_filter]
  · intro p
    rw [hfst]
    unfold buildQuery
    rw [mem_sortByLe]
    by_cases hc : jsTruthy f.category = true <;>
      by_cases hs : jsTruthy f.search = true <;>
        simp [hc, hs, List.mem_filter, and_assoc] <;>
          exact fun _ => ⟨fun h2 => ⟨h2.2, h2.1⟩, fun h2 => ⟨h2.2, h2.1⟩⟩

theorem loadProducts_size_filter_witness :
    (loadProducts ⟨none, none, some "M", none⟩ [prodA]).2 =
        (loadProducts ⟨none, none, some "M", none⟩ [prodA]).1.filter
          (sizeMatches "M") ∧
      List.Sublist (loadProducts ⟨none, none, some "M", none⟩ [prodA]).2
        (loadProducts ⟨none, none, some "M", none⟩ [prodA]).1 ∧
      (∀ p, p ∈ (loadProducts ⟨none, none, some "M", none⟩ [prodA]).2 ↔
        p ∈ (loadProducts ⟨none, none, some "M", none⟩ [prodA]).1 ∧
          sizeMatches "M" p = true) ∧
      (∀ p, p ∈ (loadProducts ⟨none, none, some "M", none⟩ [prodA]).1 ↔
        p ∈ [prodA] ∧
        (jsTruthy (none : Option String) = true →
          p.category = (none : Option String).getD "") ∧
        (jsTruthy (none : Option String) = true →
          strContainsCI p.name ((none : Option String).getD "") = true)) :=
  loadProducts_size_filter ⟨none, none, some "M", none⟩ [prodA] "M" rfl
    (by decide)

/-- A cart with no line for the pair yields no `find` hit. -/
theorem findPair_eq_none_of_countPair_zero (cart : List CartLine)
    (pid sz : String) (h : countPair cart pid sz = 0) :
    findPair cart pid sz = none := by
  unfold countPair at h
  rw [List.length_eq_zero] at h
  unfold findPair
  rw [List.find?_eq_none]
  intro x hx
  have hnx := List.filter_eq_nil_iff.mp h x hx
  simpa using hnx

/-- A cart with a line for the pair yields a `find` hit. -/
theorem findPair_isSome_of_countPair_pos (cart : List CartLine)
    (pid sz : String) (h : 1 ≤ countPair cart pid sz) :
    ∃ l, findPair cart pid sz = some l := by
  unfold countPair at h
  have hne : cart.filter
      (fun item => item.product.id = pid ∧ item.size = sz) ≠ [] := by
    intro hh
    rw [hh] at h
    simp at h
  obtain ⟨x, hx⟩ := List.exists_mem_of_ne_nil _ hne
  have hmem := List.mem_filter.mp hx
  have hs : (findPair cart pid sz).isSome := by
    unfold findPair
    rw [List.find?_isSome]
    exact ⟨x, hmem.1, hmem.2⟩
  exact Option.isSome_iff_exists.mp hs

/-- Incrementing the first matching line never changes how many lines
match the pair. -/
theorem countPair_bumpFirst (pid sz : String) (q : ℤ)
    (cart : List CartLine) :
    countPair (bumpFirst pid sz q cart) pid sz = countPair cart pid sz := by
  induction cart with
  | nil => rfl
  | cons x xs ih =>
    by_cases hx : x.product.id = pid ∧ x.size = sz
    · unfold bumpFirst
      rw [if_pos hx]
      unfold countPair
      rw [List.filter_cons_of_pos (by simpa using hx),
        List.filter_cons_of_pos (by simpa using hx)]
      simp
    · unfold bumpFirst
      rw [if_neg hx]
      unfold countPair
      rw [List.filter_cons_of_neg (by simpa using hx),
        List.filter_cons_of_neg (by simpa using hx)]
      exact ih

/-- If exactly one line matches the pair, bumping rewrites it in place. -/
theorem filter_bumpFirst (pid sz : String) (q : ℤ) (cart : List CartLine)
    (l : CartLine)
    (h : cart.filter (fun item => item.product.id = pid ∧ item.size = sz)
      = [l]) :
    (bumpFirst pid sz q cart).filter
        (fun item => item.product.id = pid ∧ item.size = sz)
      = [{ l with quantity := l.quantity + q }] := by
  induction cart with
  | nil => simp at h
  | cons x xs ih =>
    by_cases hx : x.product.id = pid ∧ x.size = sz
    · rw [List.filter_cons_of_pos (by simpa using hx)] at h
      obtain ⟨hxl, hxs⟩ := List.cons_eq_cons.mp h
      unfold bumpFirst
      rw [if_pos hx]
      rw [List.filter_cons_of_pos (by simpa using hx), hxs, hxl]
    · rw [List.filter_cons_of_neg (by simpa using hx)] at h
      unfold bumpFirst
      rw [if_neg hx]
      rw [List.filter_cons_of_neg (by simpa using hx)]
      exact ih h

/-- Running further successful `addToCart` calls on a cart with exactly
one matching line keeps exactly one, accumulating the quantities. -/
theorem applyAddEvents_keeps_single (user : Option String)
    (product : Product) (size : String) :
    ∀ (events : List AddEvent), (∀ e ∈ events, eventOk product size e) →
    ∀ (st : AppState) (l : CartLine),
    st.cart.filter
        (fun item => item.product.id = product.id ∧ item.size = size)
      = [l] →
    ∃ l2, (applyAddEvents user product size st events).cart.filter
        (fun item => item.product.id = product.id ∧ item.size = size)
      = [l2] ∧
      l2.quantity = l.quantity + (events.map AddEvent.qty).sum := by
  intro events
  induction events with
  | nil =>
    intro _ st l h
    exact ⟨l, h, by simp⟩
  | cons e es ih =>
    intro hok st l h
    obtain ⟨hupd, r, hins, hrid, hrq, hrs⟩ := hok e (by simp)
    have hpos : 1 ≤ countPair st.cart product.id size := by
      unfold countPair
      rw [h]
      simp
    obtain ⟨l0, hfind⟩ := findPair_isSome_of_countPair_pos _ _ _ hpos
    have hstep :
        (addToCart user st product size e.qty e.updErr e.insResp).1.cart
          = bumpFirst product.id size e.qty st.cart := by
      cases user with
      | some u => simp [addToCart, hfind, hupd]
      | none => simp [addToCart, hfind]
    have hfl := filter_bumpFirst product.id size e.qty st.cart l h
    simp only [applyAddEvents]
    obtain ⟨l2, hl2, hq2⟩ :=
      ih (fun x hx => hok x (by simp [hx])) _ _ (by rw [hstep]; exact hfl)
    refine ⟨l2, hl2, ?_⟩
    rw [hq2]
    simp
    ring

/-- C1: starting from a cart with no line for the (product, size) pair,
any non-empty sequence of successful `addToCart` calls for that pair
leaves exactly one line for it, carrying the sum of the added quantities;
and no `addToCart` call, with any backend outcome, ever increases the
number of lines for a pair that already has one. -/
theorem addToCart_pair_unique (user : Option String) (product : Product)
    (size : String) (events : List AddEvent) (st : AppState)
    (h0 : countPair st.cart product.id size = 0) (hne : events ≠ [])
    (hok : ∀ e ∈ events, eventOk product size e) :
    (∃ l, (applyAddEvents user product size st events).cart.filter
        (fun item => item.product.id = product.id ∧ item.size = size)
      = [l] ∧ l.quantity = (events.map AddEvent.qty).sum) ∧
    ∀ (st2 : AppState) (q : ℤ) (uE : Bool) (iR : Option InsertedRow),
      1 ≤ countPair st2.cart product.id size →
      countPair (addToCart user st2 product size q uE iR).1.cart
          product.id size
        = countPair st2.cart product.id size := by
  constructor
  · cases events with
    | nil => exact absurd rfl hne
    | cons e es =>
      obtain ⟨hupd, r, hins, hrid, hrq, hrs⟩ := hok e (by simp)
      have hfind := findPair_eq_none_of_countPair_zero _ _ _ h0
      have hfe : st.cart.filter
          (fun item => item.product.id = product.id ∧ item.size = size)
        = [] := by
        unfold countPair at h0
        rwa [List.length_eq_zero] at h0
      have hstep : ∃ newl,
          (addToCart user st product size e.qty e.updErr e.insResp).1.cart
            = st.cart ++ [newl] ∧ newl.product.id = product.id ∧
            newl.size = size ∧ newl.quantity = e.qty := by
        cases user with
        | some u =>
          refine ⟨⟨some r.rid, r.joined, r.rquantity, r.rsize⟩, ?_,
            hrid, hrs, hrq⟩
          simp [addToCart, hfind, hins]
        | none =>
          exact ⟨⟨none, product, e.qty, size⟩,
            by simp [addToCart, hfind], rfl, rfl, rfl⟩
      obtain ⟨newl, hcart, hid, hsz, hq⟩ := hstep
      have hsingle :
          (addToCart user st product size e.qty e.updErr
            e.insResp).1.cart.filter
            (fun item => item.product.id = product.id ∧ item.size = size)
          = [newl] := by
        rw [hcart, List.filter_append, hfe]
        simp [hid, hsz]
      simp only [applyAddEvents]
      obtain ⟨l2, hl2, hq2⟩ := applyAddEvents_keeps_single user product
        size es (fun x hx => hok x (by simp [hx])) _ newl hsingle
      refine ⟨l2, hl2, ?_⟩
      rw [hq2, hq]
      simp
  · intro st2 q uE iR hpos
    obtain ⟨l0, hfind⟩ := findPair_isSome_of_countPair_pos _ _ _ hpos
    cases user with
    | some u =>
      by_cases huE : uE = true
      · simp [addToCart, hfind, huE]
      · have huE2 : uE = false := by simpa using huE
        simp [addToCart, hfind, huE2, countPair_bumpFirst]
    | none => simp [addToCart, hfind, countPair_bumpFirst]

theorem addToCart_pair_unique_witness :
    (∃ l, (applyAddEvents none prodA "M" ⟨[], [], [], [], none⟩
        [⟨1, false, some ⟨"c9", prodA, 1, "M"⟩⟩,
          ⟨2, false, some ⟨"c9", prodA, 2, "M"⟩⟩]).cart.filter
        (fun item => item.product.id = prodA.id ∧ item.size = "M")
      = [l] ∧
      l.quantity = (([⟨1, false, some ⟨"c9", prodA, 1, "M"⟩⟩,
        ⟨2, false, some ⟨"c9", prodA, 2, "M"⟩⟩] :
          List AddEvent).map AddEvent.qty).sum) ∧
    ∀ (st2 : AppState) (q : ℤ) (uE : Bool) (iR : Option InsertedRow),
      1 ≤ countPair st2.cart prodA.id "M" →
      countPair (addToCart none st2 prodA "M" q uE iR).1.cart
          prodA.id "M"
        = countPair st2.cart prodA.id "M" :=
  addToCart_pair_unique none prodA "M"
    [⟨1, false, some ⟨"c9", prodA, 1, "M"⟩⟩,
      ⟨2, false, some ⟨"c9", prodA, 2, "M"⟩⟩]
    ⟨[], [], [], [], none⟩ rfl (by simp)
    (by
      intro e he
      simp only [List.mem_cons, List.not_mem_nil, or_false] at he
      rcases he with h | h <;> subst h <;>
        exact ⟨rfl, _, rfl, rfl, rfl, rfl⟩)
